import Mathlib

/-!
Verification of the agent orchestration core of the oswald-ai repository.

The Python sources embedded here (shallowly, over List Char for strings):
  * server/src/agent.py     : extract_json_from_text, identify_intent,
    call_model, repair_hallucination, call_tools, should_continue,
    route_after_repair, route_by_complexity, check_for_success, and the
    LangGraph state machine built in build_graph.
  * server/src/routers/chat.py : the initial state of a request.
  * app/tools/intent_analysis.py : decide_if_search_is_needed and
    _extract_json_from_string.
  * app/agent/tools.py      : check_safety.
  * app/agent/agent.py      : the tool-set selection of ask_question.

Python strings are List Char.  json.loads is embedded by a recursive-descent
parser over the JSON grammar Python's json module accepts (objects, arrays,
strings with escapes, numbers kept as their raw tokens, true/false/null and
the NaN/Infinity extensions); numeric tokens are not converted to floats,
which is irrelevant to every property below (no property inspects a numeric
value, and a numeric repr never contains the alphabetic substrings the code
searches for).  Exceptions are modelled by Option/Except, external I/O
(model responses, tool outcomes, HTTP responses) by oracle arguments.
-/

/-! ## Python string helpers -/

/-- Python substring test: pat in s. -/
def hasSub (pat : List Char) : List Char → Bool
  | [] => pat.isPrefixOf []
  | c :: rs => pat.isPrefixOf (c :: rs) || hasSub pat rs

/-- Python str.lower restricted to ASCII (every string the code lowers and
searches is ASCII). -/
def pyLower (s : List Char) : List Char := s.map Char.toLower

/-- Python str.upper restricted to ASCII. -/
def pyUpper (s : List Char) : List Char := s.map Char.toUpper

/-- Python whitespace for str.strip. -/
def pyWs (c : Char) : Bool :=
  c == ' ' || c == '\t' || c == '\n' || c == '\r' || c == '\x0b' || c == '\x0c'

/-- Python str.strip. -/
def pyStrip (s : List Char) : List Char :=
  ((s.dropWhile pyWs).reverse.dropWhile pyWs).reverse

/-- Python str.isdigit restricted to ASCII digits. -/
def isDigitStr (s : List Char) : Bool := !s.isEmpty && s.all Char.isDigit

/-! ## JSON values and the json.loads embedding -/

/-- A parsed JSON value.  Numbers keep their source token: the code never
inspects a numeric value, only string values and key names. -/
inductive JValue where
  | null : JValue
  | bool (b : Bool) : JValue
  | num (raw : List Char) : JValue
  | str (s : List Char) : JValue
  | arr (elems : List JValue) : JValue
  | obj (fields : List (List Char × JValue)) : JValue

/-- Python dict lookup (keys of parse-built dicts are unique). -/
def dictGet (kvs : List (List Char × JValue)) (k : List Char) : Option JValue :=
  match kvs with
  | [] => none
  | (k', v) :: rest => if k' = k then some v else dictGet rest k

/-- Python dict assignment d[k] = v: update in place if the key exists,
else append. -/
def dictInsert (kvs : List (List Char × JValue)) (k : List Char) (v : JValue) :
    List (List Char × JValue) :=
  match kvs with
  | [] => [(k, v)]
  | (k', v') :: rest =>
    if k' = k then (k', v) :: rest else (k', v') :: dictInsert rest k v

/-- Python dict d.pop(k): drop the entry with that key. -/
def dictRemove (kvs : List (List Char × JValue)) (k : List Char) :
    List (List Char × JValue) :=
  match kvs with
  | [] => []
  | (k', v') :: rest => if k' = k then rest else (k', v') :: dictRemove rest k

/-- JSON whitespace (the json module's _w class). -/
def jsonWs (c : Char) : Bool := c == ' ' || c == '\t' || c == '\n' || c == '\r'

/-- Skip JSON whitespace. -/
def skipWs (s : List Char) : List Char := s.dropWhile jsonWs

/-- Value of one hex digit. -/
def hexVal (c : Char) : Option Nat :=
  if '0' ≤ c ∧ c ≤ '9' then some (c.toNat - '0'.toNat)
  else if 'a' ≤ c ∧ c ≤ 'f' then some (c.toNat - 'a'.toNat + 10)
  else if 'A' ≤ c ∧ c ≤ 'F' then some (c.toNat - 'A'.toNat + 10)
  else none

/-- Four hex digits of a unicode escape. -/
def parseHex4 : List Char → Option (Nat × List Char)
  | a :: b :: c :: d :: rest =>
    match hexVal a, hexVal b, hexVal c, hexVal d with
    | some x, some y, some z, some w => some ((((x * 16 + y) * 16 + z) * 16 + w), rest)
    | _, _, _, _ => none
  | _ => none

/-- Body of a JSON string literal, positioned after the opening quote; strict
mode, so raw control characters are an error.  A surrogate pair of unicode
escapes is combined; a lone surrogate is not a Lean Char and falls back to
Char.ofNat's default, which no property below depends on. -/
def parseStringBody : Nat → List Char → Option (List Char × List Char)
  | 0, _ => none
  | _ + 1, [] => none
  | fuel + 1, c :: rest =>
    if c == '"' then some ([], rest)
    else if c == '\\' then
      match rest with
      | [] => none
      | e :: rest2 =>
        if e == '"' then (parseStringBody fuel rest2).map (fun p => ('"' :: p.1, p.2))
        else if e == '\\' then (parseStringBody fuel rest2).map (fun p => ('\\' :: p.1, p.2))
        else if e == '/' then (parseStringBody fuel rest2).map (fun p => ('/' :: p.1, p.2))
        else if e == 'b' then (parseStringBody fuel rest2).map (fun p => ('\x08' :: p.1, p.2))
        else if e == 'f' then (parseStringBody fuel rest2).map (fun p => ('\x0c' :: p.1, p.2))
        else if e == 'n' then (parseStringBody fuel rest2).map (fun p => ('\n' :: p.1, p.2))
        else if e == 'r' then (parseStringBody fuel rest2).map (fun p => ('\r' :: p.1, p.2))
        else if e == 't' then (parseStringBody fuel rest2).map (fun p => ('\t' :: p.1, p.2))
        else if e == 'u' then
          match parseHex4 rest2 with
          | none => none
          | some (n, rest3) =>
            if 0xD800 ≤ n ∧ n ≤ 0xDBFF then
              match rest3 with
              | '\\' :: 'u' :: rest4 =>
                match parseHex4 rest4 with
                | some (m, rest5) =>
                  if 0xDC00 ≤ m ∧ m ≤ 0xDFFF then
                    (parseStringBody fuel rest5).map
                      (fun p => (Char.ofNat (0x10000 + (n - 0xD800) * 0x400 + (m - 0xDC00)) :: p.1, p.2))
                  else (parseStringBody fuel rest3).map (fun p => (Char.ofNat n :: p.1, p.2))
                | none => (parseStringBody fuel rest3).map (fun p => (Char.ofNat n :: p.1, p.2))
              | _ => (parseStringBody fuel rest3).map (fun p => (Char.ofNat n :: p.1, p.2))
            else (parseStringBody fuel rest3).map (fun p => (Char.ofNat n :: p.1, p.2))
        else none
    else if c.toNat < 0x20 then none
    else (parseStringBody fuel rest).map (fun p => (c :: p.1, p.2))

/-- Fractional part of the json NUMBER_RE: consumed only when a dot is
followed by at least one digit. -/
def parseFrac (s : List Char) : List Char × List Char :=
  match s with
  | '.' :: r =>
    let ds := r.takeWhile Char.isDigit
    if ds.isEmpty then ([], s) else ('.' :: ds, r.dropWhile Char.isDigit)
  | _ => ([], s)

/-- Exponent part of the json NUMBER_RE: consumed only when e or E with an
optional sign is followed by at least one digit. -/
def parseExp (s : List Char) : List Char × List Char :=
  match s with
  | e :: rest =>
    if e == 'e' || e == 'E' then
      let signAndRest : List Char × List Char :=
        match rest with
        | '+' :: rr => (['+'], rr)
        | '-' :: rr => (['-'], rr)
        | _ => ([], rest)
      let ds := signAndRest.2.takeWhile Char.isDigit
      if ds.isEmpty then ([], s)
      else (e :: signAndRest.1 ++ ds, signAndRest.2.dropWhile Char.isDigit)
    else ([], s)
  | _ => ([], s)

/-- The json module's NUMBER_RE: an optional minus, an integer part with no
leading zeros, then optional fraction and exponent; the raw token is kept. -/
def parseNumber (s : List Char) : Option (List Char × List Char) :=
  let negAndRest : List Char × List Char :=
    match s with
    | '-' :: r => (['-'], r)
    | _ => ([], s)
  match negAndRest.2 with
  | [] => none
  | c :: r =>
    if c == '0' then
      let f := parseFrac r
      let e := parseExp f.2
      some (negAndRest.1 ++ '0' :: f.1 ++ e.1, e.2)
    else if c.isDigit then
      let ds := r.takeWhile Char.isDigit
      let f := parseFrac (r.dropWhile Char.isDigit)
      let e := parseExp f.2
      some (negAndRest.1 ++ c :: ds ++ f.1 ++ e.1, e.2)
    else none

mutual

/-- One JSON value at the head of the input (whitespace already skipped),
following the json module's scanner: string, object, array, the constants,
then a number; NaN and the infinities are accepted as Python does. -/
def parseValue : Nat → List Char → Option (JValue × List Char)
  | 0, _ => none
  | fuel + 1, s =>
    match s with
    | [] => none
    | '"' :: r => (parseStringBody (r.length + 1) r).map (fun p => (JValue.str p.1, p.2))
    | '\x7b' :: r =>
      let s1 := skipWs r
      match s1 with
      | '\x7d' :: r2 => some (JValue.obj [], r2)
      | '"' :: r2 => parseMembers fuel [] r2
      | _ => none
    | '[' :: r =>
      let s1 := skipWs r
      match s1 with
      | ']' :: r2 => some (JValue.arr [], r2)
      | _ => parseElements fuel [] s1
    | _ =>
      if "true".data.isPrefixOf s then some (JValue.bool true, s.drop 4)
      else if "false".data.isPrefixOf s then some (JValue.bool false, s.drop 5)
      else if "null".data.isPrefixOf s then some (JValue.null, s.drop 4)
      else if "NaN".data.isPrefixOf s then some (JValue.num "NaN".data, s.drop 3)
      else if "Infinity".data.isPrefixOf s then some (JValue.num "Infinity".data, s.drop 8)
      else if "-Infinity".data.isPrefixOf s then some (JValue.num "-Infinity".data, s.drop 9)
      else (parseNumber s).map (fun p => (JValue.num p.1, p.2))

/-- Members of a JSON object, positioned after the opening quote of a key;
repeated keys behave as Python dict assignment (last value wins, first
position kept). -/
def parseMembers : Nat → List (List Char × JValue) → List Char →
    Option (JValue × List Char)
  | 0, _, _ => none
  | fuel + 1, acc, s =>
    match parseStringBody (s.length + 1) s with
    | none => none
    | some (key, s2) =>
      match skipWs s2 with
      | ':' :: s4 =>
        match parseValue fuel (skipWs s4) with
        | none => none
        | some (v, s5) =>
          let acc2 := dictInsert acc key v
          match skipWs s5 with
          | ',' :: s7 =>
            match skipWs s7 with
            | '"' :: s8 => parseMembers fuel acc2 s8
            | _ => none
          | '\x7d' :: s7 => some (JValue.obj acc2, s7)
          | _ => none
      | _ => none

/-- Elements of a JSON array, positioned at the first element. -/
def parseElements : Nat → List JValue → List Char → Option (JValue × List Char)
  | 0, _, _ => none
  | fuel + 1, acc, s =>
    match parseValue fuel s with
    | none => none
    | some (v, s2) =>
      match skipWs s2 with
      | ',' :: s4 => parseElements fuel (acc ++ [v]) (skipWs s4)
      | ']' :: s4 => some (JValue.arr (acc ++ [v]), s4)
      | _ => none

end

/-- json.loads: leading whitespace, one value, trailing whitespace, nothing
else (otherwise the Extra data error).  None is the JSONDecodeError case.
The fuel is generous: the scanner spends at most two units per input
character. -/
def pyJsonParse (s : List Char) : Option JValue :=
  match parseValue (2 * s.length + 8) (skipWs s) with
  | some (v, rest) => if (skipWs rest).isEmpty then some v else none
  | none => none

/-! ## The Repair Unit's balanced-brace scanner (extract_json_from_text) -/

/-- The inner while loop of extract_json_from_text: consume characters while
the nesting count is positive, toggling the in-string flag at unescaped
quotes and skipping the nesting update for a brace right after a backslash.
Returns the matched candidate (its characters accumulate in acc, reversed)
and how many characters of the input were consumed, or none when the input
ends with the count still positive. -/
def braceLoop : List Char → Nat → Bool → Bool → List Char →
    Option (List Char × Nat)
  | _, 0, _, _, acc => some (acc.reverse, 0)
  | [], _ + 1, _, _, _ => none
  | c :: rs, count + 1, inString, escape, acc =>
    let step :=
      if c == '"' && !escape then braceLoop rs (count + 1) (!inString) false (c :: acc)
      else if c == '\\' && !escape then braceLoop rs (count + 1) inString true (c :: acc)
      else if !inString && c == '\x7b' then braceLoop rs (count + 2) inString false (c :: acc)
      else if !inString && c == '\x7d' then braceLoop rs count inString false (c :: acc)
      else braceLoop rs (count + 1) inString false (c :: acc)
    step.map (fun p => (p.1, p.2 + 1))

/-- The arguments-to-parameters rename: if "arguments" in data, then
data["parameters"] = data.pop("arguments"). -/
def renameArguments (kvs : List (List Char × JValue)) : List (List Char × JValue) :=
  match dictGet kvs "arguments".data with
  | some v => dictInsert (dictRemove kvs "arguments".data) "parameters".data v
  | none => kvs

/-- What the extraction loop does with one balanced candidate substring: keep
it only when the raw text contains the exact substring quote-name-quote-colon
and json.loads succeeds, renaming arguments to parameters.  A candidate
always starts with an opening brace, so a successful parse is an object; the
other branches are unreachable but kept total. -/
def processCandidate (json_str : List Char) : Option JValue :=
  if hasSub "\"name\":".data json_str then
    match pyJsonParse json_str with
    | some (JValue.obj kvs) => some (JValue.obj (renameArguments kvs))
    | some v => some v
    | none => none
  else none

/-- The outer while loop of extract_json_from_text: scan for opening braces,
balance-match each, keep the candidates processCandidate accepts; on an
unbalanced match resume one character past the opening brace, otherwise past
the candidate.  Each iteration consumes at least one character, so a fuel of
the text's length makes the zero-fuel case unreachable. -/
def extractLoopJson (fuel : Nat) (text : List Char) : List JValue :=
  match fuel, text with
  | 0, _ => []
  | _ + 1, [] => []
  | fuel + 1, c :: rs =>
    if c == '\x7b' then
      match braceLoop rs 1 false false ['\x7b'] with
      | some (cand, n) => (processCandidate cand).toList ++ extractLoopJson fuel (rs.drop n)
      | none => extractLoopJson fuel rs
    else extractLoopJson fuel rs

/-- extract_json_from_text of server/src/agent.py. -/
def extract_json_from_text (text : List Char) : List JValue :=
  extractLoopJson text.length text

/-- The same scan, returning the raw balanced candidate substrings without
filtering: the specification's notion of the candidates obtained by scanning
for opening braces with string-literal and escape awareness. -/
def candLoop (fuel : Nat) (text : List Char) : List (List Char) :=
  match fuel, text with
  | 0, _ => []
  | _ + 1, [] => []
  | fuel + 1, c :: rs =>
    if c == '\x7b' then
      match braceLoop rs 1 false false ['\x7b'] with
      | some (cand, n) => cand :: candLoop fuel (rs.drop n)
      | none => candLoop fuel rs
    else candLoop fuel rs

/-- The raw balanced-brace candidates of a text. -/
def jsonCandidates (text : List Char) : List (List Char) :=
  candLoop text.length text

/-- The specification's keep condition for a candidate: it parses as valid
JSON and the parsed object contains a name field (with the same
arguments-to-parameters rename). -/
def specProcessCandidate (json_str : List Char) : Option JValue :=
  match pyJsonParse json_str with
  | some (JValue.obj kvs) =>
    if (dictGet kvs "name".data).isSome then some (JValue.obj (renameArguments kvs))
    else none
  | _ => none

/-- The extraction the specification describes, word for word: balanced-brace
scan, then keep exactly the candidates that parse as valid JSON and contain a
name field. -/
def extract_json_spec (text : List Char) : List JValue :=
  (jsonCandidates text).filterMap specProcessCandidate

/-- Whether a text contains a brace-delimited JSON object with a name key, in
the specification's sense: some balanced-brace candidate parses to an object
having a name field. -/
def containsJsonToolCall (text : List Char) : Bool :=
  (jsonCandidates text).any (fun cand =>
    match pyJsonParse cand with
    | some (JValue.obj kvs) => (dictGet kvs "name".data).isSome
    | _ => false)

/-! ## Python str and repr of parsed JSON values -/

/-- Hex digit for the repr of a control character. -/
def hexDigit (n : Nat) : Char :=
  if n < 10 then Char.ofNat ('0'.toNat + n) else Char.ofNat ('a'.toNat + n - 10)

/-- Python repr of one character of a string, given the chosen quote. -/
def pyReprChar (q c : Char) : List Char :=
  if c == '\\' || c == q then ['\\', c]
  else if c == '\n' then ['\\', 'n']
  else if c == '\r' then ['\\', 'r']
  else if c == '\t' then ['\\', 't']
  else if c.toNat < 32 || c.toNat == 127 then
    ['\\', 'x', hexDigit (c.toNat / 16), hexDigit (c.toNat % 16)]
  else [c]

/-- Python repr of a string: single quotes unless the string holds a single
quote and no double quote; ASCII control characters escape to backslash-x
(non-ASCII repr niceties are irrelevant to the substring checks below). -/
def pyReprStr (s : List Char) : List Char :=
  let q : Char := if s.contains '\x27' && !(s.contains '"') then '"' else '\x27'
  q :: (s.map (pyReprChar q)).flatten ++ [q]

mutual

/-- Python repr of a parsed JSON value.  A numeric token prints as itself:
the float round-trip can differ on exotic tokens, but a numeric repr never
contains the alphabetic substrings these reprs are searched for. -/
def pyRepr : JValue → List Char
  | JValue.null => "None".data
  | JValue.bool true => "True".data
  | JValue.bool false => "False".data
  | JValue.num raw => raw
  | JValue.str s => pyReprStr s
  | JValue.arr xs => '[' :: pyReprList xs ++ [']']
  | JValue.obj kvs => '\x7b' :: pyReprDict kvs ++ ['\x7d']

/-- Comma-separated reprs of array elements. -/
def pyReprList : List JValue → List Char
  | [] => []
  | [x] => pyRepr x
  | x :: y :: rest => pyRepr x ++ ", ".data ++ pyReprList (y :: rest)

/-- Comma-separated key: value reprs of dict entries. -/
def pyReprDict : List (List Char × JValue) → List Char
  | [] => []
  | [(k, v)] => pyReprStr k ++ ": ".data ++ pyRepr v
  | (k, v) :: e :: rest => pyReprStr k ++ ": ".data ++ pyRepr v ++ ", ".data ++ pyReprDict (e :: rest)

end

/-- Python str() of a parsed JSON value: the string itself for a string,
repr for everything else. -/
def pyStrTop : JValue → List Char
  | JValue.str s => s
  | v => pyRepr v

/-! ## Conversation state: messages, tool calls, the LangGraph channels -/

/-- A tool invocation: name, argument mapping (a parsed JSON value) and the
correlation identifier tying the invocation to its result. -/
structure ToolCall where
  name : List Char
  args : JValue
  id : List Char

/-- A conversation turn: human, assistant (with its structured tool calls),
system, or a tool result carrying its correlation identifier, tool name and
error flag. -/
inductive Message where
  | human (content : List Char) : Message
  | ai (content : List Char) (tool_calls : List ToolCall) : Message
  | system (content : List Char) : Message
  | toolMsg (tool_call_id : List Char) (name : List Char) (content : List Char)
      (isError : Bool) : Message

/-- The content attribute common to all message kinds. -/
def msgContent : Message → List Char
  | Message.human c => c
  | Message.ai c _ => c
  | Message.system c => c
  | Message.toolMsg _ _ c _ => c

/-- AgentState of server/src/agent.py.  classification starts unset (the
initial dict of routers/chat.py has no such key); it is written by the
identify node before any read, and the empty string stands for absent. -/
structure AgentStateM where
  messages : List Message
  classification : List Char
  retry_count : Nat
  errors : List (List Char)
  user_id : List Char

/-- A node's return value: the keys of the partial state dict it returns.
messages is the only Annotated (operator.add) channel of AgentState; every
other channel is a plain LastValue, so a node's value replaces the old one
and an absent key (none) leaves it. -/
structure Update where
  messages : List Message := []
  classification : Option (List Char) := none
  retry_count : Option Nat := none
  errors : Option (List (List Char)) := none

/-- LangGraph's application of a node's return value to the state: messages
appends (its operator.add reducer), every other present key overwrites. -/
def applyUpdate (s : AgentStateM) (u : Update) : AgentStateM :=
  { messages := s.messages ++ u.messages
    classification := u.classification.getD s.classification
    retry_count := u.retry_count.getD s.retry_count
    errors := u.errors.getD s.errors
    user_id := s.user_id }

/-- The initial state built in routers/chat.py: the user prompt as the only
message, retry_count 0, no errors. -/
def chatInitState (prompt uid : List Char) : AgentStateM :=
  { messages := [Message.human prompt]
    classification := []
    retry_count := 0
    errors := []
    user_id := uid }

/-- The graph's nodes, with done standing for END. -/
inductive Node where
  | identify : Node
  | simple_model : Node
  | agent : Node
  | repair : Node
  | tools : Node
  | done : Node
deriving DecidableEq

/-! ## Node functions of server/src/agent.py -/

/-- The response processing of identify_intent: upper-cased stripped model
text classifies as COMPLEX when it contains COMPLEX and no I CANNOT, else
SIMPLE. -/
def classify_intent (raw : List Char) : List Char :=
  let u := pyUpper (pyStrip raw)
  if hasSub "COMPLEX".data u && !hasSub "I CANNOT".data u then "COMPLEX".data
  else "SIMPLE".data

/-- The state update identify_intent returns: only the classification key. -/
def identify_intent_update (raw : List Char) : Update :=
  { classification := some (classify_intent raw) }

/-- route_by_complexity: SIMPLE goes to the filtered direct model, everything
else to the agent. -/
def route_by_complexity (s : AgentStateM) : Node :=
  if s.classification = "SIMPLE".data then Node.simple_model else Node.agent

/-- The state update call_model returns: only the model's response message is
appended; nothing else is touched. -/
def call_model_update (content : List Char) (tcs : List ToolCall) : Update :=
  { messages := [Message.ai content tcs] }

/-- The mutation prompt call_model builds from the most recent error. -/
def mutation_prompt (e : List Char) : List Char :=
  "SYSTEM_OVERRIDE: Your previous attempt failed.\nError: ".data ++ e ++
  "\nINSTRUCTION: Review the error. If you need an ID, look at the existing Tool Results in the chat history instead of guessing.".data

/-- The corrective context call_model appends to the model input: the last
element of errors when the list is non-empty, nothing otherwise.  This is
input to the model only, never part of the state update. -/
def call_model_corrective (s : AgentStateM) : List Message :=
  match s.errors.getLast? with
  | some e => [Message.human (mutation_prompt e)]
  | none => []

/-- should_continue, routing after the agent node on the response just
appended: structured tool calls go to tools; else text containing the
brace-quote-name or quote-arguments substrings goes to repair; else END. -/
def should_continue (content : List Char) (tcs : List ToolCall) : Node :=
  if tcs.isEmpty then
    if hasSub "\x7b\"name\":".data content || hasSub "\"arguments\":".data content then
      Node.repair
    else Node.done
  else Node.tools

/-- route_after_repair: to tools when the last message is an assistant
message with tool calls, else back to the agent. -/
def route_after_repair (s : AgentStateM) : Node :=
  match s.messages.getLast? with
  | some (Message.ai _ tcs) => if tcs.isEmpty then Node.agent else Node.tools
  | _ => Node.agent

/-- check_for_success, routing after the tools node: a successful
discord_send_message result ends the run; otherwise errors below the retry
ceiling of 3 loop back to the agent, errors at the ceiling end the run, and
an error-free round loops back to the agent. -/
def check_for_success (s : AgentStateM) : Node :=
  let rest :=
    if s.errors ≠ [] then
      if s.retry_count < 3 then Node.agent else Node.done
    else Node.agent
  match s.messages.getLast? with
  | some (Message.toolMsg _ name content _) =>
    if name = "discord_send_message".data ∧ hasSub "Error".data content = false then
      Node.done
    else rest
  | _ => rest

/-! ## The Tool Executor (call_tools) -/

/-- The outside world's answer to one tool invocation: the stringified
return value of ainvoke, or the message of the exception it raised. -/
inductive ToolExec where
  | ok (output : List Char) : ToolExec
  | raise (msg : List Char) : ToolExec

/-- The error string recorded for a failed invocation. -/
def execErrMsg (name msg : List Char) : List Char :=
  "Error executing ".data ++ name ++ ": ".data ++ msg

/-- The message of the ValueError raised for an unregistered tool name. -/
def unknownToolMsg (name : List Char) : List Char :=
  "Tool '".data ++ name ++ "' does not exist.".data

/-- One iteration of the executor's loop: an unregistered name raises a
ValueError caught by the same handler as a tool exception, and never
consults the tool; otherwise the oracle outcome at this round position is
the invocation's result or its exception.  Returns the ToolMessage appended
and the error recorded, if any. -/
def execToolCall (reg : List (List Char)) (outs : Nat → ToolExec) (i : Nat)
    (tc : ToolCall) : Message × Option (List Char) :=
  if tc.name ∈ reg then
    match outs i with
    | ToolExec.ok output => (Message.toolMsg tc.id tc.name output false, none)
    | ToolExec.raise m =>
      (Message.toolMsg tc.id tc.name (execErrMsg tc.name m) true,
       some (execErrMsg tc.name m))
  else
    (Message.toolMsg tc.id tc.name (execErrMsg tc.name (unknownToolMsg tc.name)) true,
     some (execErrMsg tc.name (unknownToolMsg tc.name)))

/-- The executor's loop over all invocations of the round, from position i:
the results in order, and the errors of the failed ones in order. -/
def execRound (reg : List (List Char)) (outs : Nat → ToolExec) :
    Nat → List ToolCall → List Message × List (List Char)
  | _, [] => ([], [])
  | i, tc :: rest =>
    let r := execToolCall reg outs i tc
    let rs := execRound reg outs (i + 1) rest
    (r.1 :: rs.1, r.2.toList ++ rs.2)

/-- call_tools of server/src/agent.py: guard against a last message that is
not an assistant message with tool calls (returning only the errors key, so
retry_count stays untouched); otherwise run every invocation, append all
results, replace errors with this round's errors and bump retry_count by one
exactly when the round had at least one error. -/
def call_tools (reg : List (List Char)) (outs : Nat → ToolExec)
    (s : AgentStateM) : Update :=
  match s.messages.getLast? with
  | some (Message.ai _ tcs) =>
    if tcs.isEmpty then
      { errors := some ["Invalid message routed to tools".data] }
    else
      let r := execRound reg outs 0 tcs
      { messages := r.1
        errors := some r.2
        retry_count := some (s.retry_count + (if r.2.isEmpty then 0 else 1)) }
  | _ => { errors := some ["Invalid message routed to tools".data] }

/-! ## The Hallucination Repair Unit (repair_hallucination) -/

/-- What the repair loop produces for one extracted candidate. -/
inductive RepairItem where
  | call (tc : ToolCall) : RepairItem
  | err (e : List Char) : RepairItem

/-- Python str() of the name value fetched by data.get, which is None when
the key is absent. -/
def pyStrOptName : Option JValue → List Char
  | none => "None".data
  | some v => pyStrTop v

/-- The correlation identifier the repair unit synthesizes: repair_, the
candidate index, an underscore and the message count. -/
def repair_id (i nmsg : Nat) : List Char :=
  "repair_".data ++ (Nat.repr i).data ++ "_".data ++ (Nat.repr nmsg).data

/-- The unknown-tool error of the repair unit. -/
def unknownToolErr (nm : Option JValue) : List Char :=
  "Tool '".data ++ pyStrOptName nm ++
  "' does not exist. Did you mean 'discord_get_server_info'?".data

/-- The outer guard of the placeholder check: str(args).lower() contains
channel_id or general. -/
def placeholder_guard (args : JValue) : Bool :=
  hasSub "channel_id".data (pyLower (pyStrTop args)) ||
  hasSub "general".data (pyLower (pyStrTop args))

/-- The inner placeholder test on one argument value: a string that contains
an angle bracket, or id or general case-insensitively, and is not all
digits. -/
def placeholderVal : JValue → Bool
  | JValue.str v =>
    (hasSub "<".data v || hasSub "id".data (pyLower v) || hasSub "general".data (pyLower v))
      && !isDigitStr v
  | _ => false

/-- The placeholder error, interpolating str(args); it directs the model to
the output of discord_get_server_info. -/
def placeholder_error (args : JValue) : List Char :=
  "Argument contains a placeholder ('".data ++ pyStrTop args ++
  "'). STOP. Check the output of 'discord_get_server_info' in the chat history. Find the NUMERIC ID (e.g., 99887766) corresponding to the channel name and use that.".data

/-- The body of the repair loop for one candidate.  none is an uncaught
Python exception.  Two such paths exist: data.get on a non-dict candidate
(which extraction cannot produce, since every candidate starts with an
opening brace and so parses to an object), and the set-membership test of
name not in valid_tool_names on an unhashable name value — which extraction
CAN produce (a candidate whose name value is itself a JSON object or
array), so the repair unit can raise an uncaught TypeError.  An
unregistered (or missing, or non-string hashable) name yields the
unknown-tool error; a registered name passes the placeholder check only
when str(args).lower() mentions channel_id or general. -/
def repairOne (reg : List (List Char)) (nmsg i : Nat) : JValue → Option RepairItem
  | JValue.obj kvs =>
    let nm := dictGet kvs "name".data
    match nm with
    | some (JValue.obj _) => none
    | some (JValue.arr _) => none
    | _ =>
      let isValid := match nm with
        | some (JValue.str s) => decide (s ∈ reg)
        | _ => false
      if isValid then
        match nm with
        | some (JValue.str s) =>
          let args := (dictGet kvs "parameters".data).getD (JValue.obj [])
          if placeholder_guard args then
            match args with
            | JValue.obj akvs =>
              if akvs.any (fun kv => placeholderVal kv.2) then
                some (RepairItem.err (placeholder_error (JValue.obj akvs)))
              else some (RepairItem.call ⟨s, args, repair_id i nmsg⟩)
            | _ => none
          else some (RepairItem.call ⟨s, args, repair_id i nmsg⟩)
        | _ => none
      else some (RepairItem.err (unknownToolErr nm))
  | _ => none

/-- The repair loop over all extracted candidates, from index i, collecting
synthesized invocations and errors in order. -/
def repairLoop (reg : List (List Char)) (nmsg : Nat) :
    Nat → List JValue → Option (List ToolCall × List (List Char))
  | _, [] => some ([], [])
  | i, d :: ds =>
    match repairOne reg nmsg i d with
    | none => none
    | some item =>
      match repairLoop reg nmsg (i + 1) ds with
      | none => none
      | some (tcs, es) =>
        match item with
        | RepairItem.call tc => some (tc :: tcs, es)
        | RepairItem.err e => some (tcs, e :: es)

/-- Content of the last message (or the empty string), as the repair unit
reads it; the graph guarantees the message list is non-empty there. -/
def lastContent (msgs : List Message) : List Char :=
  match msgs.getLast? with
  | some m => msgContent m
  | none => []

/-- repair_hallucination of server/src/agent.py: no extracted candidate
yields the parse-failure error; otherwise the loop's errors-and-calls decide
between a corrective error turn (no calls, some errors) and a synthesized
assistant turn carrying the calls.  none is an uncaught exception inside
the loop: extraction can emit a candidate whose name value is an object or
array, on which the membership test raises TypeError. -/
def repair_hallucination (reg : List (List Char)) (s : AgentStateM) :
    Option Update :=
  let content := lastContent s.messages
  let extracted := extract_json_from_text content
  if extracted.isEmpty then
    some { errors := some ["Failed to parse JSON".data]
           messages := [Message.human "SYSTEM ERROR: You wrote text instead of running the tool. Use the Tool Interface (JSON).".data] }
  else
    match repairLoop reg s.messages.length 0 extracted with
    | none => none
    | some (tcs, errs) =>
      if tcs.isEmpty && !errs.isEmpty then
        some { errors := some errs
               messages := [Message.human ("SYSTEM ERROR: ".data ++
                 List.intercalate "; ".data errs)] }
      else some { messages := [Message.ai [] tcs] }

/-! ## The orchestration graph as a step relation -/

/-- One transition of the compiled graph, for a fixed tool registry.  The
oracle data of each step (the model's raw classification text, the agent
response's text and structured tool calls, the tool outcomes) is carried by
the constructor; the repair step exists only when the repair unit returns
(does not raise).  done (END) has no outgoing step. -/
inductive Step (reg : List (List Char)) :
    Node × AgentStateM → Node × AgentStateM → Prop where
  | identify (s : AgentStateM) (raw : List Char) :
      Step reg (Node.identify, s)
        (route_by_complexity (applyUpdate s (identify_intent_update raw)),
         applyUpdate s (identify_intent_update raw))
  | simple (s : AgentStateM) (content : List Char) :
      Step reg (Node.simple_model, s)
        (Node.done, applyUpdate s (call_model_update content []))
  | agent (s : AgentStateM) (content : List Char) (tcs : List ToolCall) :
      Step reg (Node.agent, s)
        (should_continue content tcs, applyUpdate s (call_model_update content tcs))
  | repair (s : AgentStateM) (u : Update)
      (h : repair_hallucination reg s = some u) :
      Step reg (Node.repair, s)
        (route_after_repair (applyUpdate s u), applyUpdate s u)
  | tools (s : AgentStateM) (outs : Nat → ToolExec) :
      Step reg (Node.tools, s)
        (check_for_success (applyUpdate s (call_tools reg outs s)),
         applyUpdate s (call_tools reg outs s))

/-- The configurations one request can reach: the reflexive-transitive
closure of Step from the initial state of routers/chat.py at the identify
node (START's only edge). -/
def Reach (reg : List (List Char)) (prompt uid : List Char)
    (c : Node × AgentStateM) : Prop :=
  Relation.ReflTransGen (Step reg) (Node.identify, chatInitState prompt uid) c

/-! ## app/tools/intent_analysis.py -/

/-- The outcome of the requests.post call of decide_if_search_is_needed: a
RequestException (covering connection failure, timeout and the HTTPError of
raise_for_status), or a response body to hand to response.json(). -/
inductive HttpResult where
  | requestError (msg : List Char) : HttpResult
  | response (body : List Char) : HttpResult

/-- _extract_json_from_string: the slice from the first opening brace to the
last closing brace when that is a non-empty forward span, else the empty
object literal. -/
def extract_json_from_string (text : List Char) : List Char :=
  match text.findIdx? (· == '\x7b'), (text.reverse.findIdx? (· == '\x7d')) with
  | some si, some ri =>
    let ei := text.length - 1 - ri
    if si < ei then (text.drop si).take (ei + 1 - si) else "\x7b\x7d".data
  | _, _ => "\x7b\x7d".data

/-- decide_if_search_is_needed of app/tools/intent_analysis.py.  Every
failure path is caught inside the function and silently defaulted: an unset
host and every caught exception default to True (search), and a non-boolean
search_needed defaults to False; no failure propagates to the caller. -/
def decide_if_search_is_needed (hostSet : Bool) (res : HttpResult) : Bool :=
  if !hostSet then true
  else
    match res with
    | HttpResult.requestError _ => true
    | HttpResult.response body =>
      match pyJsonParse body with
      | none => true
      | some envelope =>
        match envelope with
        | JValue.obj kvs =>
          match (dictGet kvs "response".data).getD (JValue.str "\x7b\x7d".data) with
          | JValue.str sdata =>
            match pyJsonParse (extract_json_from_string sdata) with
            | none => true
            | some intent =>
              match intent with
              | JValue.obj ikvs =>
                match (dictGet ikvs "search_needed".data).getD (JValue.bool false) with
                | JValue.bool b => b
                | _ => false
              | _ => true
          | _ => true
        | _ => true

/-- A Python exception as seen by a caller of the server-side classifier. -/
inductive PyExn where
  | exn (msg : List Char) : PyExn

/-- identify_intent of server/src/agent.py at the granularity of its one
model call: the function has no exception handler, so a failing backend call
propagates to the caller unchanged, and a successful response is classified
by classify_intent. -/
def identify_intent (backend : Except PyExn (List Char)) :
    Except PyExn (List Char) :=
  match backend with
  | Except.error e => Except.error e
  | Except.ok raw => Except.ok (classify_intent raw)

/-! ## app/agent/tools.py and app/agent/agent.py -/

/-- The outcome of the httpx post inside check_safety: a raised exception
(connection failure or timeout), or a status code with a response body. -/
inductive HttpxOutcome where
  | exn (msg : List Char) : HttpxOutcome
  | resp (status : Nat) (body : List Char) : HttpxOutcome

/-- The verdict normalization of check_safety: strip, upper-case, remove
periods. -/
def safetyNormalize (s : List Char) : List Char :=
  (pyUpper (pyStrip s)).filter (· ≠ '.')

/-- check_safety of app/agent/tools.py: raise_for_status on a non-2xx
status, response.json().get("response", ""), then the SAFE / UNSAFE / NOT
UNSAFE verdict logic; every exception of the try block is caught and the
function returns True. -/
def check_safety (o : HttpxOutcome) : Bool :=
  match o with
  | HttpxOutcome.exn _ => true
  | HttpxOutcome.resp status body =>
    if status < 200 ∨ 300 ≤ status then true
    else
      match pyJsonParse body with
      | none => true
      | some v =>
        match v with
        | JValue.obj kvs =>
          match (dictGet kvs "response".data).getD (JValue.str []) with
          | JValue.str raw =>
            let result := safetyNormalize raw
            if "SAFE".data.isPrefixOf result then true
            else if hasSub "UNSAFE".data result && !hasSub "NOT UNSAFE".data result then
              false
            else true
          | _ => true
        | _ => true

/-- The tool-set selection of ask_question in app/agent/agent.py: the full
tool list when the safety check passed, the empty list otherwise. -/
def ask_question_tools (allTools : List (List Char)) (safe : Bool) :
    List (List Char) :=
  if safe then allTools else []

/-! ## Concrete inputs used by counterexamples and witnesses -/

/-- A JSON object whose name field is separated from its colon by a space:
valid JSON with a name field, yet missing the exact substring the code
searches for. -/
def c1cex : List Char := "\x7b\"name\" : 1\x7d".data

/-- A message text containing a brace-delimited JSON object with a name key
but neither of the two substrings the router searches for. -/
def c2cex : List Char := "\x7b\"name\" : \"x\"\x7d".data

/-- A registered web_search candidate whose query argument is the obvious
placeholder angle-bracket topic. -/
def c4data : JValue :=
  JValue.obj [("name".data, JValue.str "web_search".data),
              ("parameters".data, JValue.obj [("query".data, JValue.str "<topic>".data)])]

/-- A structured tool call used by the concrete traces. -/
def w_tc : ToolCall := ⟨"t".data, JValue.obj [], "x".data⟩

/-- Tool outcomes for the trace on the empty registry (never consulted, as
the name is unregistered). -/
def w_outs : Nat → ToolExec := fun _ => ToolExec.ok "o".data

/-- The trace for the retry ceiling: identify, then three agent-tools rounds
against an empty registry, each round failing on the unregistered name. -/
def w_s1 : AgentStateM :=
  applyUpdate (chatInitState "p".data "u".data) (identify_intent_update "COMPLEX".data)

/-- Second trace state: the agent's structured tool call appended. -/
def w_s2 : AgentStateM := applyUpdate w_s1 (call_model_update [] [w_tc])

/-- Third trace state: the first failed round. -/
def w_s3 : AgentStateM := applyUpdate w_s2 (call_tools [] w_outs w_s2)

/-- Fourth trace state: the agent retries the same call. -/
def w_s4 : AgentStateM := applyUpdate w_s3 (call_model_update [] [w_tc])

/-- Fifth trace state: the second failed round. -/
def w_s5 : AgentStateM := applyUpdate w_s4 (call_tools [] w_outs w_s4)

/-- Sixth trace state: the agent retries again. -/
def w_s6 : AgentStateM := applyUpdate w_s5 (call_model_update [] [w_tc])

/-- Seventh trace state: the third failed round, reaching the ceiling. -/
def w_s7 : AgentStateM := applyUpdate w_s6 (call_tools [] w_outs w_s6)

/-- Outcomes raising exception A, for the first round of the error-overwrite
trace. -/
def v_outsA : Nat → ToolExec := fun _ => ToolExec.raise "A".data

/-- Outcomes raising exception B, for its second round. -/
def v_outsB : Nat → ToolExec := fun _ => ToolExec.raise "B".data

/-- The registry of the error-overwrite trace: the called name exists, so
the rounds fail with the raised exceptions A and then B. -/
def v_reg : List (List Char) := ["t".data]

/-- Error-overwrite trace after identify. -/
def v_s1 : AgentStateM :=
  applyUpdate (chatInitState "p".data "u".data) (identify_intent_update "COMPLEX".data)

/-- Error-overwrite trace after the agent's tool call. -/
def v_s2 : AgentStateM := applyUpdate v_s1 (call_model_update [] [w_tc])

/-- Error-overwrite trace after the round that raises A. -/
def v_s3 : AgentStateM := applyUpdate v_s2 (call_tools v_reg v_outsA v_s2)

/-- Error-overwrite trace after the agent retries. -/
def v_s4 : AgentStateM := applyUpdate v_s3 (call_model_update [] [w_tc])

/-- Error-overwrite trace after the round that raises B, which replaces the
errors channel wholesale. -/
def v_s5 : AgentStateM := applyUpdate v_s4 (call_tools v_reg v_outsB v_s4)


/-- The two-invocation round of the executor witness: one success, one
failure. -/
def c7w_tcs : List ToolCall :=
  [⟨"t".data, JValue.obj [], "id0".data⟩, ⟨"t".data, JValue.obj [], "id1".data⟩]

/-- The state holding that round as its last message. -/
def c7w_s : AgentStateM :=
  { messages := [Message.ai [] c7w_tcs]
    classification := []
    retry_count := 0
    errors := []
    user_id := [] }

/-- Outcomes for the witness round: the first invocation succeeds, the
second raises. -/
def c7w_outs : Nat → ToolExec :=
  fun n => if n == 0 then ToolExec.ok "fine".data else ToolExec.raise "boom".data

/-- Concrete states of the error-overwrite witness for the last-write-wins
statement: two states equal except for their previously recorded errors. -/
def c5w_s : AgentStateM :=
  { messages := [Message.ai [] [w_tc]]
    classification := []
    retry_count := 0
    errors := ["A".data]
    user_id := [] }

/-- The same state with a different error history. -/
def c5w_t : AgentStateM :=
  { messages := [Message.ai [] [w_tc]]
    classification := []
    retry_count := 0
    errors := ["B".data]
    user_id := [] }

/-- Whether a fetched name value is hashable in Python: a dict or list
value is not; everything else json.loads can put there (a string, number,
boolean, null) and an absent key (None) are. -/
def hashableName : Option JValue → Bool
  | some (JValue.obj _) => false
  | some (JValue.arr _) => false
  | _ => true

/-- A model text whose embedded tool-call JSON carries an object as its
name value: the router's substring test sends it to repair, extraction
accepts it as a candidate, and the repair unit's membership test then
raises on the unhashable dict. -/
def c8cex : List Char := "\x7b\"name\": \x7b\"a\": 1\x7d\x7d".data

/-- The state after identify and an agent turn emitting that text as prose
with no structured calls, which the router sends to the repair node. -/
def c8_s2 : AgentStateM := applyUpdate w_s1 (call_model_update c8cex [])

/-! ## Helper lemmas -/

/-- A substring of t is a substring of s ++ t. -/
theorem hasSub_append_right (p t : List Char) (h : hasSub p t = true) :
    ∀ s : List Char, hasSub p (s ++ t) = true := by
  intro s
  induction s with
  | nil => simpa using h
  | cons c cs ih =>
    show hasSub p (c :: (cs ++ t)) = true
    simp [hasSub, ih]

/-- The fuelled extraction loop is the fuelled candidate scan filtered by the
keep condition. -/
theorem extractLoop_filterMap (fuel : Nat) :
    ∀ text, extractLoopJson fuel text = (candLoop fuel text).filterMap processCandidate := by
  induction fuel with
  | zero => intro text; simp [extractLoopJson, candLoop]
  | succ n ih =>
    intro text
    cases text with
    | nil => simp [extractLoopJson, candLoop]
    | cons c rs =>
      by_cases hc : (c == '\x7b') = true
      · rw [extractLoopJson, candLoop]
        rw [if_pos hc, if_pos hc]
        cases hb : braceLoop rs 1 false false ['\x7b'] with
        | none => exact ih rs
        | some p =>
          rw [List.filterMap_cons]
          cases hp : processCandidate p.1 <;> simp [hp, ih]
      · rw [extractLoopJson, candLoop]
        rw [if_neg hc, if_neg hc]
        exact ih rs

/-! ## C1: the Repair Unit's JSON extraction -/

/-- C1 counterexample: on a JSON object whose name key is separated from its
colon by a space, the code extracts nothing, while the specification's keep
condition (parses as valid JSON and contains a name field) keeps it; so
extraction does not return exactly the candidates the claim describes. -/
theorem c1_keep_condition_counterexample :
    extract_json_from_text c1cex = [] ∧
    extract_json_spec c1cex = [JValue.obj [("name".data, JValue.num ['1'])]] ∧
    extract_json_from_text c1cex ≠ extract_json_spec c1cex := by
  refine ⟨rfl, rfl, ?_⟩
  intro h
  rw [show extract_json_from_text c1cex = [] from rfl,
    show extract_json_spec c1cex = [JValue.obj [("name".data, JValue.num ['1'])]] from rfl] at h
  simp at h

/-- C1 amended: extraction returns exactly the balanced-brace candidates of
the scan, kept if and only if processCandidate accepts them, that is when
the raw candidate text contains the exact substring quote-name-quote-colon
(with no whitespace) and parses as valid JSON, with an arguments key renamed
to parameters; malformed candidates are skipped and the scan continues. -/
theorem c1_extraction_amended (text : List Char) :
    extract_json_from_text text = (jsonCandidates text).filterMap processCandidate :=
  extractLoop_filterMap text.length text

/-! ## C2: the router after the agent step -/

/-- C2 counterexample: a message whose text is a brace-delimited JSON object
with a name key (as containsJsonToolCall certifies), carrying no structured
tool calls, routes to END rather than to the repair node, because the code
tests the exact substrings brace-quote-name-colon and quote-arguments-colon,
not JSON containment. -/
theorem c2_router_counterexample :
    containsJsonToolCall c2cex = true ∧
    should_continue c2cex [] = Node.done ∧
    should_continue c2cex [] ≠ Node.repair := by
  refine ⟨rfl, rfl, ?_⟩
  intro h
  rw [show should_continue c2cex [] = Node.done from rfl] at h
  simp at h

/-- C2 amended: after an agent step the router goes to tools exactly when
the response carries structured tool calls (prose alongside them never
reaches the repair unit); with no structured calls it goes to repair exactly
when the text contains one of the two literal substrings the code searches
for, and to END otherwise. -/
theorem c2_router_amended (content : List Char) (tcs : List ToolCall) :
    (should_continue content tcs = Node.tools ↔ tcs ≠ []) ∧
    (should_continue content tcs = Node.repair ↔
      tcs = [] ∧ (hasSub "\x7b\"name\":".data content = true ∨
        hasSub "\"arguments\":".data content = true)) ∧
    (should_continue content tcs = Node.done ↔
      tcs = [] ∧ hasSub "\x7b\"name\":".data content = false ∧
        hasSub "\"arguments\":".data content = false) := by
  unfold should_continue
  cases tcs with
  | nil =>
    simp only [List.isEmpty_nil, if_true]
    by_cases h1 : hasSub "\x7b\"name\":".data content = true <;>
      by_cases h2 : hasSub "\"arguments\":".data content = true <;>
        simp_all
  | cons t ts => simp

/-! ## C9: failure handling of intent classification -/

/-- C9 counterexample: when the backend request of the app-side search
decider fails, the function catches the exception and silently returns the
defaulted decision True instead of propagating a request-level error. -/
theorem c9_silent_default_counterexample :
    decide_if_search_is_needed true (HttpResult.requestError "connection refused".data) = true :=
  rfl

/-- C9 amended: the server-side classifier propagates a failing backend call
to its caller unchanged (it has no handler) and classifies successful
responses; the app-side search decider instead catches request failures and
silently defaults to performing a search, and likewise defaults when the
host variable is unset. -/
theorem c9_classifier_failure_amended :
    (∀ e, identify_intent (Except.error e) = Except.error e) ∧
    (∀ raw, identify_intent (Except.ok raw) = Except.ok (classify_intent raw)) ∧
    (∀ m, decide_if_search_is_needed true (HttpResult.requestError m) = true) ∧
    (∀ r, decide_if_search_is_needed false r = true) :=
  ⟨fun _ => rfl, fun _ => rfl, fun _ => rfl, fun _ => rfl⟩

/-! ## C10: the pre-search safety gate fails open -/

/-- C10: check_safety returns True whenever the guardrail call raises (any
exception: connection failure, timeout), whenever the status is not 2xx
(raise_for_status, caught by the same handler), whenever the body is not
JSON, and whenever the normalized verdict neither starts with SAFE nor
contains UNSAFE; and a True safety verdict leaves the full tool set enabled
in ask_question. -/
theorem c10_fail_open (o : HttpxOutcome) (allTools : List (List Char))
    (h : (∃ m, o = HttpxOutcome.exn m) ∨
      (∃ status body, o = HttpxOutcome.resp status body ∧ (status < 200 ∨ 300 ≤ status)) ∨
      (∃ status body, o = HttpxOutcome.resp status body ∧ 200 ≤ status ∧ status < 300 ∧
        pyJsonParse body = none) ∨
      (∃ status body kvs s, o = HttpxOutcome.resp status body ∧ 200 ≤ status ∧
        status < 300 ∧ pyJsonParse body = some (JValue.obj kvs) ∧
        dictGet kvs "response".data = some (JValue.str s) ∧
        "SAFE".data.isPrefixOf (safetyNormalize s) = false ∧
        hasSub "UNSAFE".data (safetyNormalize s) = false)) :
    check_safety o = true ∧ ask_question_tools allTools (check_safety o) = allTools := by
  have hc : check_safety o = true := by
    rcases h with ⟨m, rfl⟩ | ⟨st, body, rfl, hst⟩ |
        ⟨st, body, rfl, h1, h2, hp⟩ | ⟨st, body, kvs, s, rfl, h1, h2, hp, hg, hpre, hsub⟩
    · rfl
    · simp only [check_safety]
      rw [if_pos hst]
    · simp only [check_safety]
      rw [if_neg (by omega), hp]
    · simp only [check_safety]
      rw [if_neg (by omega), hp]
      simp only [hg, Option.getD_some]
      rw [if_neg (by simp [hpre]), if_neg (by simp [hsub])]
  refine ⟨hc, ?_⟩
  rw [hc]
  rfl

/-- C10 witness: the fail-open conclusion at a concrete raised timeout. -/
theorem c10_fail_open_witness :
    check_safety (HttpxOutcome.exn "timeout".data) = true ∧
    ask_question_tools ["search_searxng".data]
      (check_safety (HttpxOutcome.exn "timeout".data)) = ["search_searxng".data] :=
  c10_fail_open (HttpxOutcome.exn "timeout".data) ["search_searxng".data]
    (Or.inl ⟨"timeout".data, rfl⟩)

/-! ## C4: placeholder detection in the repair unit -/

/-- C4 counterexample: a registered web_search candidate whose query value
is the placeholder angle-bracket topic is converted into an invocation, not
rejected: the placeholder check runs only when str(args).lower() mentions
channel_id or general, which this argument does not. -/
theorem c4_placeholder_counterexample :
    placeholderVal (JValue.str "<topic>".data) = true ∧
    repairOne ["web_search".data] 1 0 c4data =
      some (RepairItem.call ⟨"web_search".data,
        JValue.obj [("query".data, JValue.str "<topic>".data)], "repair_0_1".data⟩) := by
  exact ⟨rfl, rfl⟩

/-- C4 amended: for a registered candidate, the repair unit rejects exactly
when str(args).lower() contains channel_id or general AND some argument
value is placeholder-like (a non-digit string containing an angle bracket,
id or general); otherwise the candidate is accepted unchanged, placeholders
included.  The rejection error directs the model to the output of
discord_get_server_info (not discord_list_channels). -/
theorem c4_placeholder_amended (reg : List (List Char)) (nmsg i : Nat)
    (kvs akvs : List (List Char × JValue)) (name : List Char)
    (h1 : dictGet kvs "name".data = some (JValue.str name)) (h2 : name ∈ reg)
    (hargs : (dictGet kvs "parameters".data).getD (JValue.obj []) = JValue.obj akvs) :
    (repairOne reg nmsg i (JValue.obj kvs) =
        some (RepairItem.err (placeholder_error (JValue.obj akvs))) ↔
      placeholder_guard (JValue.obj akvs) = true ∧
        akvs.any (fun kv => placeholderVal kv.2) = true) ∧
    (placeholder_guard (JValue.obj akvs) = false →
      repairOne reg nmsg i (JValue.obj kvs) =
        some (RepairItem.call ⟨name, JValue.obj akvs, repair_id i nmsg⟩)) ∧
    (akvs.any (fun kv => placeholderVal kv.2) = false →
      repairOne reg nmsg i (JValue.obj kvs) =
        some (RepairItem.call ⟨name, JValue.obj akvs, repair_id i nmsg⟩)) ∧
    hasSub "discord_get_server_info".data (placeholder_error (JValue.obj akvs)) = true := by
  have hrep : repairOne reg nmsg i (JValue.obj kvs) =
      (if placeholder_guard (JValue.obj akvs) then
        (if akvs.any (fun kv => placeholderVal kv.2) then
          some (RepairItem.err (placeholder_error (JValue.obj akvs)))
        else some (RepairItem.call ⟨name, JValue.obj akvs, repair_id i nmsg⟩))
      else some (RepairItem.call ⟨name, JValue.obj akvs, repair_id i nmsg⟩)) := by
    simp only [repairOne, h1, hargs, decide_eq_true h2, if_true]
  refine ⟨?_, ?_, ?_, ?_⟩
  · rw [hrep]
    constructor
    · intro h
      by_cases hg : placeholder_guard (JValue.obj akvs) = true
      · by_cases ha : akvs.any (fun kv => placeholderVal kv.2) = true
        · exact ⟨hg, ha⟩
        · rw [hg, if_pos rfl] at h
          simp only [Bool.not_eq_true] at ha
          rw [ha] at h
          simp at h
      · simp only [Bool.not_eq_true] at hg
        rw [hg] at h
        simp at h
    · intro ⟨hg, ha⟩
      rw [hg, ha]
      simp
  · intro hg
    rw [hrep, hg]
    simp
  · intro ha
    rw [hrep, ha]
    by_cases hg : placeholder_guard (JValue.obj akvs) = true <;> simp [hg]
  · unfold placeholder_error
    rw [List.append_assoc]
    refine hasSub_append_right _ _ ?_ _
    refine hasSub_append_right _ _ ?_ _
    decide

/-- C4 witness: the amended characterization at the scenario of a
discord_send_message call whose channel_id is the string general, which is
rejected with the error naming discord_get_server_info. -/
theorem c4_placeholder_amended_witness :
    (repairOne ["discord_send_message".data] 2 0
        (JValue.obj [("name".data, JValue.str "discord_send_message".data),
          ("parameters".data, JValue.obj
            [("channel_id".data, JValue.str "general".data),
             ("content".data, JValue.str "hi".data)])]) =
      some (RepairItem.err (placeholder_error (JValue.obj
        [("channel_id".data, JValue.str "general".data),
         ("content".data, JValue.str "hi".data)]))) ↔
      placeholder_guard (JValue.obj
        [("channel_id".data, JValue.str "general".data),
         ("content".data, JValue.str "hi".data)]) = true ∧
      ([("channel_id".data, JValue.str "general".data),
        ("content".data, JValue.str "hi".data)].any (fun kv => placeholderVal kv.2)) = true) ∧
    (placeholder_guard (JValue.obj
        [("channel_id".data, JValue.str "general".data),
         ("content".data, JValue.str "hi".data)]) = false →
      repairOne ["discord_send_message".data] 2 0
        (JValue.obj [("name".data, JValue.str "discord_send_message".data),
          ("parameters".data, JValue.obj
            [("channel_id".data, JValue.str "general".data),
             ("content".data, JValue.str "hi".data)])]) =
      some (RepairItem.call ⟨"discord_send_message".data,
        JValue.obj [("channel_id".data, JValue.str "general".data),
          ("content".data, JValue.str "hi".data)], "repair_0_2".data⟩)) ∧
    (([("channel_id".data, JValue.str "general".data),
       ("content".data, JValue.str "hi".data)].any (fun kv => placeholderVal kv.2)) = false →
      repairOne ["discord_send_message".data] 2 0
        (JValue.obj [("name".data, JValue.str "discord_send_message".data),
          ("parameters".data, JValue.obj
            [("channel_id".data, JValue.str "general".data),
             ("content".data, JValue.str "hi".data)])]) =
      some (RepairItem.call ⟨"discord_send_message".data,
        JValue.obj [("channel_id".data, JValue.str "general".data),
          ("content".data, JValue.str "hi".data)], "repair_0_2".data⟩)) ∧
    hasSub "discord_get_server_info".data (placeholder_error (JValue.obj
      [("channel_id".data, JValue.str "general".data),
       ("content".data, JValue.str "hi".data)])) = true :=
  c4_placeholder_amended ["discord_send_message".data] 2 0 _ _ _
    rfl (List.mem_singleton.mpr rfl) rfl

/-! ## C8: unregistered tool names -/

/-- C8 counterexample: the model text holding a JSON object whose name
value is itself an object is routed to the repair node by the router's
substring test and extracted as a candidate; on it the membership test of
name not in valid_tool_names raises an uncaught TypeError (a dict is
unhashable), modelled by the none results of repairOne and of
repair_hallucination on the reachable repair configuration — the system
crashes instead of recording a descriptive error. -/
theorem c8_unhashable_name_counterexample :
    extract_json_from_text c8cex =
      [JValue.obj [("name".data, JValue.obj [("a".data, JValue.num ['1'])])]] ∧
    should_continue c8cex [] = Node.repair ∧
    Reach ["web_search".data] "p".data "u".data (Node.repair, c8_s2) ∧
    repairOne ["web_search".data] 2 0
      (JValue.obj [("name".data, JValue.obj [("a".data, JValue.num ['1'])])]) = none ∧
    repair_hallucination ["web_search".data] c8_s2 = none := by
  refine ⟨rfl, rfl, ?_, rfl, rfl⟩
  have r0 : Reach ["web_search".data] "p".data "u".data
      (Node.identify, chatInitState "p".data "u".data) := Relation.ReflTransGen.refl
  have r1 : Reach ["web_search".data] "p".data "u".data (Node.agent, w_s1) :=
    r0.tail (Step.identify (chatInitState "p".data "u".data) "COMPLEX".data)
  exact r1.tail (Step.agent w_s1 c8cex [])

/-- C8 amended: during execution, every invocation with an unregistered
name yields the error-tagged result built from the caught ValueError,
without consulting the tool outcome oracle and without raising; during
repair validation, a candidate whose fetched name value is hashable (a
string, number, boolean, null, or an absent key) and, when a string, not
registered, is dropped with the descriptive unknown-tool error and no
synthesized invocation.  The never-crashes part holds only there: a
candidate whose name value is an object or array makes the membership test
raise an uncaught TypeError (the counterexample). -/
theorem c8_unknown_tool_amended (reg : List (List Char)) (nmsg i j : Nat)
    (kvs : List (List Char × JValue)) (nm : Option JValue)
    (outs outs' : Nat → ToolExec) (tc : ToolCall)
    (h0 : dictGet kvs "name".data = nm) (h1 : hashableName nm = true)
    (h2 : ∀ name, nm = some (JValue.str name) → name ∉ reg) (h3 : tc.name ∉ reg) :
    repairOne reg nmsg i (JValue.obj kvs) =
      some (RepairItem.err (unknownToolErr nm)) ∧
    (execToolCall reg outs j tc).1 =
      Message.toolMsg tc.id tc.name (execErrMsg tc.name (unknownToolMsg tc.name)) true ∧
    (execToolCall reg outs j tc).2 =
      some (execErrMsg tc.name (unknownToolMsg tc.name)) ∧
    execToolCall reg outs j tc = execToolCall reg outs' j tc := by
  refine ⟨?_, ?_, ?_, ?_⟩
  · cases nm with
    | none => simp only [repairOne, h0, Bool.false_eq_true, if_false]
    | some v =>
      cases v with
      | null => simp only [repairOne, h0, Bool.false_eq_true, if_false]
      | bool b => simp only [repairOne, h0, Bool.false_eq_true, if_false]
      | num raw => simp only [repairOne, h0, Bool.false_eq_true, if_false]
      | str name =>
        simp only [repairOne, h0, decide_eq_false (h2 name rfl),
          Bool.false_eq_true, if_false]
      | arr xs => simp [hashableName] at h1
      | obj fields => simp [hashableName] at h1
  · simp only [execToolCall, if_neg h3]
  · simp only [execToolCall, if_neg h3]
  · simp only [execToolCall, if_neg h3]

/-- C8 witness: the amended behaviour at a concrete unregistered string
name, with two different oracles to certify the executor's result does not
consult them. -/
theorem c8_unknown_tool_amended_witness :
    repairOne ["a".data] 5 0 (JValue.obj [("name".data, JValue.str "ghost".data)]) =
      some (RepairItem.err (unknownToolErr (some (JValue.str "ghost".data)))) ∧
    (execToolCall ["a".data] (fun _ => ToolExec.ok "z".data) 0
        ⟨"ghost".data, JValue.obj [], "i1".data⟩).1 =
      Message.toolMsg "i1".data "ghost".data
        (execErrMsg "ghost".data (unknownToolMsg "ghost".data)) true ∧
    (execToolCall ["a".data] (fun _ => ToolExec.ok "z".data) 0
        ⟨"ghost".data, JValue.obj [], "i1".data⟩).2 =
      some (execErrMsg "ghost".data (unknownToolMsg "ghost".data)) ∧
    execToolCall ["a".data] (fun _ => ToolExec.ok "z".data) 0
        ⟨"ghost".data, JValue.obj [], "i1".data⟩ =
      execToolCall ["a".data] (fun _ => ToolExec.raise "y".data) 0
        ⟨"ghost".data, JValue.obj [], "i1".data⟩ :=
  c8_unknown_tool_amended ["a".data] 5 0 0 [("name".data, JValue.str "ghost".data)]
    (some (JValue.str "ghost".data)) (fun _ => ToolExec.ok "z".data)
    (fun _ => ToolExec.raise "y".data) ⟨"ghost".data, JValue.obj [], "i1".data⟩
    rfl rfl (fun name h => by cases h; decide) (by decide)

/-! ## C7: the executor's per-invocation results -/

/-- The executor produces one result per invocation. -/
theorem execRound_length (reg : List (List Char)) (outs : Nat → ToolExec) :
    ∀ (tcs : List ToolCall) (i : Nat),
      (execRound reg outs i tcs).1.length = tcs.length := by
  intro tcs
  induction tcs with
  | nil => intro i; rfl
  | cons tc rest ih => intro i; simp [execRound, ih]

/-- The executor's result at each round position is the execution of the
invocation at that position alone. -/
theorem execRound_getD (reg : List (List Char)) (outs : Nat → ToolExec) :
    ∀ (tcs : List ToolCall) (i0 i : Nat), i < tcs.length →
      (execRound reg outs i0 tcs).1.getD i (Message.human []) =
        (execToolCall reg outs (i0 + i) (tcs.getD i ⟨[], JValue.null, []⟩)).1 := by
  intro tcs
  induction tcs with
  | nil => intro i0 i h; simp at h
  | cons tc rest ih =>
    intro i0 i h
    cases i with
    | zero => simp [execRound]
    | succ j =>
      have hj : j < rest.length := by simpa using h
      have := ih (i0 + 1) j hj
      simp only [execRound, List.getD_cons_succ]
      rw [this]
      have : i0 + 1 + j = i0 + (j + 1) := by omega
      rw [this]

/-- C7: on a structured tool-call turn (the last message is an assistant
message with a non-empty tool_calls list), the executor's update carries
exactly one tool-result turn per invocation, appended after the existing
conversation; the result at position i carries the correlation identifier
and name of the invocation at position i, and is the tool's output on
success, or an error-tagged result capturing the exception (or the
ValueError for an unregistered name) on failure, independently of the other
invocations of the round. -/
theorem c7_executor_per_invocation (reg : List (List Char)) (outs : Nat → ToolExec)
    (s : AgentStateM) (content : List Char) (tcs : List ToolCall) (i : Nat)
    (hlast : s.messages.getLast? = some (Message.ai content tcs))
    (hne : tcs.isEmpty = false) (hi : i < tcs.length) :
    (call_tools reg outs s).messages.length = tcs.length ∧
    (applyUpdate s (call_tools reg outs s)).messages =
      s.messages ++ (call_tools reg outs s).messages ∧
    (call_tools reg outs s).messages.getD i (Message.human []) =
      (let tc := tcs.getD i ⟨[], JValue.null, []⟩
       if tc.name ∈ reg then
         match outs i with
         | ToolExec.ok output => Message.toolMsg tc.id tc.name output false
         | ToolExec.raise m => Message.toolMsg tc.id tc.name (execErrMsg tc.name m) true
       else
         Message.toolMsg tc.id tc.name
           (execErrMsg tc.name (unknownToolMsg tc.name)) true) := by
  have hct : call_tools reg outs s =
      { messages := (execRound reg outs 0 tcs).1
        errors := some (execRound reg outs 0 tcs).2
        retry_count := some (s.retry_count +
          (if (execRound reg outs 0 tcs).2.isEmpty then 0 else 1)) } := by
    simp only [call_tools, hlast, hne, Bool.false_eq_true, if_false]
  refine ⟨?_, rfl, ?_⟩
  · rw [hct]
    exact execRound_length reg outs tcs 0
  · rw [hct]
    show (execRound reg outs 0 tcs).1.getD i (Message.human []) = _
    rw [execRound_getD reg outs tcs 0 i hi]
    rw [Nat.zero_add]
    simp only [execToolCall]
    by_cases hm : (tcs.getD i ⟨[], JValue.null, []⟩).name ∈ reg
    · rw [if_pos hm, if_pos hm]
      cases outs i <;> rfl
    · rw [if_neg hm, if_neg hm]

/-- C7 witness: a two-invocation round, one success and one failure, against
a registry containing only that name. -/
theorem c7_executor_witness :
    (call_tools ["t".data] c7w_outs c7w_s).messages.length = c7w_tcs.length ∧
    (applyUpdate c7w_s (call_tools ["t".data] c7w_outs c7w_s)).messages =
      c7w_s.messages ++ (call_tools ["t".data] c7w_outs c7w_s).messages ∧
    (call_tools ["t".data] c7w_outs c7w_s).messages.getD 1 (Message.human []) =
      (let tc := c7w_tcs.getD 1 ⟨[], JValue.null, []⟩
       if tc.name ∈ ["t".data] then
         match c7w_outs 1 with
         | ToolExec.ok output => Message.toolMsg tc.id tc.name output false
         | ToolExec.raise m => Message.toolMsg tc.id tc.name (execErrMsg tc.name m) true
       else
         Message.toolMsg tc.id tc.name
           (execErrMsg tc.name (unknownToolMsg tc.name)) true) :=
  c7_executor_per_invocation ["t".data] c7w_outs c7w_s [] c7w_tcs 1
    rfl rfl (by decide)

/-! ## C5: the errors channel is overwritten, not accumulated -/

/-- A tool round's errors are a function of the registry, the outcomes and
the conversation messages alone, and the round always writes the errors
key; in particular the resulting errors never depend on the errors held
before the round. -/
theorem call_tools_errors_of_messages (reg : List (List Char))
    (outs : Nat → ToolExec) (s t : AgentStateM) (hm : s.messages = t.messages) :
    (call_tools reg outs s).errors = (call_tools reg outs t).errors ∧
    ∃ es, (call_tools reg outs s).errors = some es := by
  constructor
  · unfold call_tools
    rw [hm]
    split
    · split <;> rfl
    · rfl
  · unfold call_tools
    split
    · split
      · exact ⟨_, rfl⟩
      · exact ⟨_, rfl⟩
    · exact ⟨_, rfl⟩

/-- C5 counterexample, on a reachable run: after identify, an agent tool
call and a first round raising exception A, the errors channel holds the
A-error; the very next round (raising B) replaces the channel, and the
A-error recorded earlier is gone from the state, refuting accumulation. -/
theorem c5_errors_dropped_counterexample :
    Reach v_reg "p".data "u".data (Node.tools, v_s4) ∧
    Step v_reg (Node.tools, v_s4) (check_for_success v_s5, v_s5) ∧
    execErrMsg "t".data "A".data ∈ v_s4.errors ∧
    execErrMsg "t".data "A".data ∉ v_s5.errors := by
  have r0 : Reach v_reg "p".data "u".data
      (Node.identify, chatInitState "p".data "u".data) := Relation.ReflTransGen.refl
  have r1 : Reach v_reg "p".data "u".data (Node.agent, v_s1) :=
    r0.tail (Step.identify (chatInitState "p".data "u".data) "COMPLEX".data)
  have r2 : Reach v_reg "p".data "u".data (Node.tools, v_s2) :=
    r1.tail (Step.agent v_s1 [] [w_tc])
  have r3 : Reach v_reg "p".data "u".data (Node.agent, v_s3) :=
    r2.tail (Step.tools v_s2 v_outsA)
  have r4 : Reach v_reg "p".data "u".data (Node.tools, v_s4) :=
    r3.tail (Step.agent v_s3 [] [w_tc])
  refine ⟨r4, Step.tools v_s4 v_outsB, ?_, ?_⟩
  · decide
  · decide

/-- C5 amended: the errors field is a last-write-wins channel, not an
accumulating sequence: the state after a tool round carries exactly that
round's errors, whatever error strings were recorded before (two states
with the same messages end the round with identical errors), and earlier
entries are dropped; the part of the claim that holds is that the agent
step feeds exactly the last element of the current errors list back as the
corrective context. -/
theorem c5_errors_last_write_wins (reg : List (List Char)) (outs : Nat → ToolExec)
    (s t : AgentStateM) (e : List Char)
    (hm : s.messages = t.messages) (he : t.errors.getLast? = some e) :
    (applyUpdate s (call_tools reg outs s)).errors =
      (applyUpdate t (call_tools reg outs t)).errors ∧
    call_model_corrective t = [Message.human (mutation_prompt e)] := by
  obtain ⟨heq, es, hes⟩ := call_tools_errors_of_messages reg outs s t hm
  constructor
  · show (call_tools reg outs s).errors.getD s.errors =
      (call_tools reg outs t).errors.getD t.errors
    rw [← heq, hes]
    simp
  · unfold call_model_corrective
    rw [he]

/-- C5 witness: the last-write-wins conclusion at two concrete states that
differ only in their previously recorded errors. -/
theorem c5_errors_last_write_wins_witness :
    (applyUpdate c5w_s (call_tools v_reg v_outsA c5w_s)).errors =
      (applyUpdate c5w_t (call_tools v_reg v_outsA c5w_t)).errors ∧
    call_model_corrective c5w_t = [Message.human (mutation_prompt "B".data)] :=
  c5_errors_last_write_wins v_reg v_outsA c5w_s c5w_t "B".data rfl rfl

/-! ## Invariants of the orchestration graph -/

/-- The repair unit's update never touches retry_count. -/
theorem repair_update_retry_none (reg : List (List Char)) (s : AgentStateM)
    (u : Update) (h : repair_hallucination reg s = some u) :
    u.retry_count = none := by
  simp only [repair_hallucination] at h
  split at h
  · cases h; rfl
  · split at h
    · cases h
    · split at h
      · cases h; rfl
      · cases h; rfl

/-- The classification router only targets the direct model or the agent. -/
theorem route_by_complexity_cases (s : AgentStateM) :
    route_by_complexity s = Node.simple_model ∨ route_by_complexity s = Node.agent := by
  unfold route_by_complexity
  split
  · exact Or.inl rfl
  · exact Or.inr rfl

/-- The post-tools router only targets the agent or END. -/
theorem check_for_success_cases (s : AgentStateM) :
    check_for_success s = Node.agent ∨ check_for_success s = Node.done := by
  simp only [check_for_success]
  split
  · split
    · exact Or.inr rfl
    · split
      · split
        · exact Or.inl rfl
        · exact Or.inr rfl
      · exact Or.inl rfl
  · split
    · split
      · exact Or.inl rfl
      · exact Or.inr rfl
    · exact Or.inl rfl

/-- With errors present and the retry ceiling reached, the post-tools router
returns END. -/
theorem check_for_success_done_of (s : AgentStateM) (h1 : s.errors ≠ [])
    (h2 : ¬ s.retry_count < 3) : check_for_success s = Node.done := by
  simp only [check_for_success, if_pos h1, if_neg h2]
  split
  · split
    · rfl
    · rfl
  · rfl

/-- If the post-tools router loops to the agent, the state had no errors or
was below the retry ceiling. -/
theorem check_for_success_agent_of (s : AgentStateM)
    (h : check_for_success s = Node.agent) : s.errors = [] ∨ s.retry_count < 3 := by
  by_contra hc
  push_neg at hc
  rw [check_for_success_done_of s hc.1 (by omega)] at h
  cases h

/-- The agent router targets the tools node exactly on a response with
structured tool calls. -/
theorem should_continue_tools_iff (content : List Char) (tcs : List ToolCall) :
    should_continue content tcs = Node.tools ↔ tcs.isEmpty = false := by
  unfold should_continue
  cases h : tcs.isEmpty
  · simp
  · simp only [if_true]
    constructor
    · intro hsc
      split at hsc <;> cases hsc
    · intro hf
      cases hf

/-- If the repair router targets the tools node, the last message is an
assistant message with a non-empty tool-call list. -/
theorem route_after_repair_tools (s : AgentStateM)
    (h : route_after_repair s = Node.tools) :
    ∃ content tcs, s.messages.getLast? = some (Message.ai content tcs) ∧
      tcs.isEmpty = false := by
  unfold route_after_repair at h
  split at h
  · next c tcs heq =>
    split at h
    · cases h
    · next hne =>
      exact ⟨c, tcs, heq, by simpa using hne⟩
  · cases h

/-- The two shapes of the executor's update: the guard (no retry key), or
the main path whose retry increment is one exactly when the round errors
are non-empty. -/
theorem call_tools_shape (reg : List (List Char)) (outs : Nat → ToolExec)
    (s : AgentStateM) :
    ((call_tools reg outs s).retry_count = none ∧
      (call_tools reg outs s).errors = some ["Invalid message routed to tools".data] ∧
      (call_tools reg outs s).messages = []) ∨
    ∃ msgs es, call_tools reg outs s =
      { messages := msgs, errors := some es
        retry_count := some (s.retry_count + if es.isEmpty then 0 else 1) } := by
  unfold call_tools
  split
  · split
    · exact Or.inl ⟨rfl, rfl, rfl⟩
    · exact Or.inr ⟨_, _, rfl⟩
  · exact Or.inl ⟨rfl, rfl, rfl⟩

/-- One step preserves the retry bound: at most 2 away from END, at most 3
at END. -/
theorem step_retry_inv (reg : List (List Char)) (c c' : Node × AgentStateM)
    (h : Step reg c c') (h1 : c.1 ≠ Node.done → c.2.retry_count ≤ 2) :
    (c'.1 = Node.done → c'.2.retry_count ≤ 3) ∧
    (c'.1 ≠ Node.done → c'.2.retry_count ≤ 2) := by
  cases h with
  | identify s raw =>
    have hb : s.retry_count ≤ 2 := h1 (by simp)
    exact ⟨fun _ => by show s.retry_count ≤ 3; omega, fun _ => hb⟩
  | simple s content =>
    have hb : s.retry_count ≤ 2 := h1 (by simp)
    exact ⟨fun _ => by show s.retry_count ≤ 3; omega, fun _ => hb⟩
  | agent s content tcs =>
    have hb : s.retry_count ≤ 2 := h1 (by simp)
    exact ⟨fun _ => by show s.retry_count ≤ 3; omega, fun _ => hb⟩
  | repair s u hrep =>
    have hb : s.retry_count ≤ 2 := h1 (by simp)
    have hr : (applyUpdate s u).retry_count = s.retry_count := by
      show u.retry_count.getD s.retry_count = s.retry_count
      rw [repair_update_retry_none reg s u hrep]
      rfl
    exact ⟨fun _ => by rw [hr]; omega, fun _ => by rw [hr]; exact hb⟩
  | tools s outs =>
    have hb : s.retry_count ≤ 2 := h1 (by simp)
    rcases call_tools_shape reg outs s with ⟨hrn, _, _⟩ | ⟨msgs, es, hu⟩
    · have hr : (applyUpdate s (call_tools reg outs s)).retry_count = s.retry_count := by
        show (call_tools reg outs s).retry_count.getD s.retry_count = s.retry_count
        rw [hrn]
        rfl
      exact ⟨fun _ => by rw [hr]; omega, fun _ => by rw [hr]; exact hb⟩
    · have hr : (applyUpdate s (call_tools reg outs s)).retry_count =
          s.retry_count + if es.isEmpty then 0 else 1 := by
        show (call_tools reg outs s).retry_count.getD s.retry_count = _
        rw [hu]
        rfl
      have he : (applyUpdate s (call_tools reg outs s)).errors = es := by
        show (call_tools reg outs s).errors.getD s.errors = es
        rw [hu]
        rfl
      constructor
      · intro _
        rw [hr]
        split <;> omega
      · intro hnd
        rcases check_for_success_cases (applyUpdate s (call_tools reg outs s)) with hc | hc
        · rcases check_for_success_agent_of _ hc with hce | hcr
          · rw [he] at hce
            rw [hr, hce]
            simp
            omega
          · rw [hr] at hcr ⊢
            omega
        · exact absurd hc hnd

/-- Every reachable configuration respects the retry bound. -/
theorem reach_retry_inv (reg : List (List Char)) (prompt uid : List Char)
    (c : Node × AgentStateM) (h : Reach reg prompt uid c) :
    (c.1 = Node.done → c.2.retry_count ≤ 3) ∧
    (c.1 ≠ Node.done → c.2.retry_count ≤ 2) := by
  induction h with
  | refl =>
    constructor
    · intro hd; cases hd
    · intro _; show (0 : Nat) ≤ 2; omega
  | tail hs hstep ih => exact step_retry_inv reg _ _ hstep ih.2

/-- No step leaves END. -/
theorem done_no_step (reg : List (List Char)) (s : AgentStateM)
    (d : Node × AgentStateM) : ¬ Step reg (Node.done, s) d := by
  intro h
  cases h

/-- At a reachable tools configuration, the last message is an assistant
message with a non-empty tool-call list (the routers guarantee it). -/
theorem reach_tools_shape (reg : List (List Char)) (prompt uid : List Char)
    (c : Node × AgentStateM) (h : Reach reg prompt uid c) :
    c.1 = Node.tools →
    ∃ content tcs, c.2.messages.getLast? = some (Message.ai content tcs) ∧
      tcs.isEmpty = false := by
  induction h with
  | refl => intro hn; cases hn
  | tail hs hstep ih =>
    intro hn
    cases hstep with
    | identify s raw =>
      have hn' : route_by_complexity (applyUpdate s (identify_intent_update raw)) =
          Node.tools := hn
      rcases route_by_complexity_cases (applyUpdate s (identify_intent_update raw)) with
          h2 | h2 <;> rw [hn'] at h2 <;> cases h2
    | simple s content => cases hn
    | agent s content tcs =>
      have hn' : should_continue content tcs = Node.tools := hn
      have he : tcs.isEmpty = false := (should_continue_tools_iff content tcs).mp hn'
      refine ⟨content, tcs, ?_, he⟩
      show (s.messages ++ [Message.ai content tcs]).getLast? = _
      rw [List.getLast?_concat]
    | repair s u hrep => exact route_after_repair_tools _ hn
    | tools s outs =>
      have hn' : check_for_success (applyUpdate s (call_tools reg outs s)) =
          Node.tools := hn
      rcases check_for_success_cases (applyUpdate s (call_tools reg outs s)) with h2 | h2 <;>
        rw [hn'] at h2 <;> cases h2

/-- The trace through identify and an agent tool call reaches the tools node
with retry_count 0. -/
theorem w_reach2 : Reach [] "p".data "u".data (Node.tools, w_s2) := by
  have r0 : Reach [] "p".data "u".data
      (Node.identify, chatInitState "p".data "u".data) := Relation.ReflTransGen.refl
  have r1 : Reach [] "p".data "u".data (Node.agent, w_s1) :=
    r0.tail (Step.identify (chatInitState "p".data "u".data) "COMPLEX".data)
  exact r1.tail (Step.agent w_s1 [] [w_tc])

/-- Two further failed rounds reach the tools node with retry_count 2. -/
theorem w_reach6 : Reach [] "p".data "u".data (Node.tools, w_s6) := by
  have r3 : Reach [] "p".data "u".data (Node.agent, w_s3) :=
    w_reach2.tail (Step.tools w_s2 w_outs)
  have r4 : Reach [] "p".data "u".data (Node.tools, w_s4) :=
    r3.tail (Step.agent w_s3 [] [w_tc])
  have r5 : Reach [] "p".data "u".data (Node.agent, w_s5) :=
    r4.tail (Step.tools w_s4 w_outs)
  exact r5.tail (Step.agent w_s5 [] [w_tc])

/-- The third failed round reaches END with retry_count 3. -/
theorem w_reach7 : Reach [] "p".data "u".data (Node.done, w_s7) :=
  w_reach6.tail (Step.tools w_s6 w_outs)

/-! ## C3: the retry ceiling terminates the loop -/

/-- C3: every reachable configuration of a request has retry_count at most
3, and a reachable configuration whose retry_count is 3 is at END, with no
outgoing step at all — in particular no further AGENT call.  Since each
errored round adds exactly one to retry_count, after the third consecutive
errored round the router has returned END. -/
theorem c3_retry_ceiling (reg : List (List Char)) (prompt uid : List Char)
    (c d : Node × AgentStateM) (hreach : Reach reg prompt uid c) :
    c.2.retry_count ≤ 3 ∧
    (c.2.retry_count = 3 → c.1 = Node.done ∧ ¬ Step reg c d) := by
  obtain ⟨inv1, inv2⟩ := reach_retry_inv reg prompt uid c hreach
  constructor
  · by_cases hd : c.1 = Node.done
    · exact inv1 hd
    · have := inv2 hd
      omega
  · intro h3
    have hd : c.1 = Node.done := by
      by_contra hnd
      have := inv2 hnd
      omega
    refine ⟨hd, ?_⟩
    obtain ⟨n, st⟩ := c
    have hn : n = Node.done := hd
    subst hn
    exact done_no_step reg st d

/-- C3 witness: the ceiling conclusion at the end of the concrete trace of
three consecutive failed rounds, whose retry_count is exactly 3. -/
theorem c3_retry_ceiling_witness :
    (Node.done, w_s7).2.retry_count ≤ 3 ∧
    ((Node.done, w_s7).2.retry_count = 3 → (Node.done, w_s7).1 = Node.done ∧
      ¬ Step [] (Node.done, w_s7) (Node.agent, w_s7)) :=
  c3_retry_ceiling [] "p".data "u".data (Node.done, w_s7) (Node.agent, w_s7) w_reach7

/-! ## C6: retry_count never decreases, bumps once per errored round -/

/-- C6: along any reachable step, retry_count never decreases; steps of
other nodes leave it unchanged, and a tools round adds exactly one when the
round recorded at least one error (in which case the errors channel ends
non-empty) and exactly zero when it was error-free (errors channel ends
empty) — one per round, not one per failed invocation. -/
theorem c6_retry_increment (reg : List (List Char)) (prompt uid : List Char)
    (c c' : Node × AgentStateM) (hreach : Reach reg prompt uid c)
    (hstep : Step reg c c') :
    c.2.retry_count ≤ c'.2.retry_count ∧
    (c.1 ≠ Node.tools → c'.2.retry_count = c.2.retry_count) ∧
    (c.1 = Node.tools →
      (c'.2.errors ≠ [] ∧ c'.2.retry_count = c.2.retry_count + 1) ∨
      (c'.2.errors = [] ∧ c'.2.retry_count = c.2.retry_count)) := by
  cases hstep with
  | identify s raw =>
    exact ⟨Nat.le_refl _, fun _ => rfl, fun h => absurd h (by simp)⟩
  | simple s content =>
    exact ⟨Nat.le_refl _, fun _ => rfl, fun h => absurd h (by simp)⟩
  | agent s content tcs =>
    exact ⟨Nat.le_refl _, fun _ => rfl, fun h => absurd h (by simp)⟩
  | repair s u hrep =>
    have hr : (applyUpdate s u).retry_count = s.retry_count := by
      show u.retry_count.getD s.retry_count = s.retry_count
      rw [repair_update_retry_none reg s u hrep]
      rfl
    refine ⟨?_, fun _ => hr, fun h => absurd h (by simp)⟩
    show s.retry_count ≤ (applyUpdate s u).retry_count
    rw [hr]
  | tools s outs =>
    obtain ⟨content, tcs, hlast, hne⟩ := reach_tools_shape reg prompt uid _ hreach rfl
    have hct : call_tools reg outs s =
        { messages := (execRound reg outs 0 tcs).1
          errors := some (execRound reg outs 0 tcs).2
          retry_count := some (s.retry_count +
            (if (execRound reg outs 0 tcs).2.isEmpty then 0 else 1)) } := by
      simp only [call_tools, hlast, hne, Bool.false_eq_true, if_false]
    have hr : (applyUpdate s (call_tools reg outs s)).retry_count =
        s.retry_count + (if (execRound reg outs 0 tcs).2.isEmpty then 0 else 1) := by
      show (call_tools reg outs s).retry_count.getD s.retry_count = _
      rw [hct]
      rfl
    have he : (applyUpdate s (call_tools reg outs s)).errors =
        (execRound reg outs 0 tcs).2 := by
      show (call_tools reg outs s).errors.getD s.errors = _
      rw [hct]
      rfl
    refine ⟨?_, fun hnt => absurd rfl hnt, fun _ => ?_⟩
    · show s.retry_count ≤ (applyUpdate s (call_tools reg outs s)).retry_count
      rw [hr]
      split <;> omega
    · cases hE : (execRound reg outs 0 tcs).2.isEmpty
      · left
        constructor
        · show (applyUpdate s (call_tools reg outs s)).errors ≠ []
          rw [he]
          intro hnil
          rw [hnil] at hE
          simp at hE
        · show (applyUpdate s (call_tools reg outs s)).retry_count = s.retry_count + 1
          rw [hr, hE]
          rfl
      · right
        constructor
        · show (applyUpdate s (call_tools reg outs s)).errors = []
          rw [he]
          cases hL : (execRound reg outs 0 tcs).2 with
          | nil => rfl
          | cons a as => rw [hL] at hE; simp at hE
        · show (applyUpdate s (call_tools reg outs s)).retry_count = s.retry_count
          rw [hr, hE]
          rfl

/-- C6 witness: the increment conclusion at the concrete first errored
round of the trace, whose retry_count goes from 0 to 1. -/
theorem c6_retry_increment_witness :
    (Node.tools, w_s2).2.retry_count ≤ (check_for_success w_s3, w_s3).2.retry_count ∧
    ((Node.tools, w_s2).1 ≠ Node.tools →
      (check_for_success w_s3, w_s3).2.retry_count = (Node.tools, w_s2).2.retry_count) ∧
    ((Node.tools, w_s2).1 = Node.tools →
      ((check_for_success w_s3, w_s3).2.errors ≠ [] ∧
        (check_for_success w_s3, w_s3).2.retry_count = (Node.tools, w_s2).2.retry_count + 1) ∨
      ((check_for_success w_s3, w_s3).2.errors = [] ∧
        (check_for_success w_s3, w_s3).2.retry_count = (Node.tools, w_s2).2.retry_count)) :=
  c6_retry_increment [] "p".data "u".data (Node.tools, w_s2) (check_for_success w_s3, w_s3)
    w_reach2 (Step.tools w_s2 w_outs)
